import Mathlib

/-!
Verification of `gitversion.py` (dairiki/gitversion): a shallow embedding of
the version resolver in Lean 4, with theorems checking the natural-language
specification against the code.

Python strings are modelled as `List Char` (the module is Python 2, so the
character classes of the regex module are plain ASCII: `\s` is
`[ \t\n\r\v\f]` and `\d` is `[0-9]`).  Subprocess invocations are modelled by
an environment `GitEnv` recording the outcome of each of the three git
commands the module runs; the cache file is modelled by a state `FS` that is
threaded through `get_version` explicitly, together with a log of the writes
performed on it.  Exceptions are modelled with `Except`.
-/

namespace Gitversion

/-- Python strings, modelled as lists of characters. -/
abbrev Str := List Char

/-- ASCII whitespace, the set matched by `\s` (and stripped by `str.strip`)
in Python 2: space, tab, newline, carriage return, vertical tab, form feed. -/
def isSpaceC (c : Char) : Bool :=
  c = ' ' || c = '\t' || c = '\n' || c = '\r' || c = '\x0b' || c = '\x0c'

/-- ASCII decimal digit, the set matched by `\d` in Python 2. -/
def isDigitC (c : Char) : Bool :=
  48 ≤ c.toNat && c.toNat ≤ 57

/-- Lower-case hexadecimal digit, the character class `[\da-f]` of the SHA
part of `GIT_DESCRIPION_re`. -/
def isHexC (c : Char) : Bool :=
  isDigitC c || (97 ≤ c.toNat && c.toNat ≤ 102)

/-- `s.lstrip()`: drop leading ASCII whitespace. -/
def lstrip (s : Str) : Str := s.dropWhile isSpaceC

/-- `s.rstrip()`: drop trailing ASCII whitespace. -/
def rstrip (s : Str) : Str := (s.reverse.dropWhile isSpaceC).reverse

/-- `s.strip()`: drop whitespace at both ends. -/
def strip (s : Str) : Str := rstrip (lstrip s)

/-- The decimal digit characters. -/
def digitChar : Nat → Char
  | 0 => '0' | 1 => '1' | 2 => '2' | 3 => '3' | 4 => '4'
  | 5 => '5' | 6 => '6' | 7 => '7' | 8 => '8' | _ => '9'

/-- Decimal rendering of a natural number (the `%d` format of Python),
written with explicit fuel so that it is structurally recursive.  The fuel
`n + 1` used by `decimalRepr` always suffices, since a number `n` has at
most `n + 1` decimal digits. -/
def decimalAux : Nat → Nat → Str
  | 0, _ => []
  | fuel + 1, n =>
    if n < 10 then [digitChar n]
    else decimalAux fuel (n / 10) ++ [digitChar (n % 10)]

/-- `"%d" % n`. -/
def decimalRepr (n : Nat) : Str := decimalAux (n + 1) n

/-- `int(ds)` for a string of decimal digits (the `post` capture group). -/
def natOfDigits (ds : Str) : Nat :=
  ds.foldl (fun a c => 10 * a + (c.toNat - 48)) 0

/-!
## The description regex

```
GIT_DESCRIPION_re = re.compile(
    r'''\A \s*
        (?P<release>.*?)
        (?:
           -(?P<post>\d+)
           -g(?:[\da-f]+)               # SHA
        )?
        (?P<dirty>-dirty)?
        \s* \Z''', re.X)
```

The matcher below reproduces the backtracking search of `re.match` on this
pattern directly.  The search order of the engine is: the leading `\s*` is
greedy (longest whitespace run first, backtracking to shorter runs); the
`release` group `.*?` is lazy (shortest first) and `.` does not match a
newline; the `(?:-(?P<post>\d+)-g[\da-f]+)?` group and the `(-dirty)?` group
are greedy options (present tried before absent); the `\d+` and `[\da-f]+`
runs are greedy and, because the character following each run in the pattern
cannot itself belong to the run, only their maximal match can ever succeed,
so no backtracking inside the optional group is needed.
-/

/-- `\s* \Z`: the rest of the input is entirely whitespace. -/
def tailEnd (s : Str) : Bool := s.all isSpaceC

/-- Match `(?P<dirty>-dirty)? \s* \Z` against `s`, returning whether the
dirty group matched. The dirty branch is tried first (greedy option). -/
def tryDirty (s : Str) : Option Bool :=
  match s with
  | '-' :: 'd' :: 'i' :: 'r' :: 't' :: 'y' :: rest =>
    if tailEnd rest then some true
    else if tailEnd s then some false
    else none
  | _ => if tailEnd s then some false else none

/-- Match `(?:-(?P<post>\d+)-g[\da-f]+)? (?P<dirty>-dirty)? \s* \Z` against
`s`, returning the `post` capture (as its digit string) and the dirty flag.
The optional post/SHA group is tried first; on failure of it or of its
continuation the engine falls back to skipping the group. -/
def tryPost (s : Str) : Option (Option Str × Bool) :=
  match s with
  | '-' :: rest =>
    let ds := rest.takeWhile isDigitC
    let rest2 := rest.dropWhile isDigitC
    match ds, rest2 with
    | _ :: _, '-' :: 'g' :: rest3 =>
      let hs := rest3.takeWhile isHexC
      let rest4 := rest3.dropWhile isHexC
      (match hs with
       | _ :: _ =>
         (match tryDirty rest4 with
          | some d => some (some ds, d)
          | none => (tryDirty s).map (fun d => (none, d)))
       | [] => (tryDirty s).map (fun d => (none, d)))
    | _, _ => (tryDirty s).map (fun d => (none, d))
  | _ => (tryDirty s).map (fun d => (none, d))

/-- Match `(?P<release>.*?) (?:...)? (-dirty)? \s* \Z` against `s`.  The lazy
`release` group takes the shortest prefix whose continuation matches; `.`
does not match `\n`. `acc` holds the reversed release prefix taken so far. -/
def tryRelease : Str → Str → Option (Str × Option Str × Bool)
  | acc, [] =>
    match tryPost [] with
    | some (p, d) => some (acc.reverse, p, d)
    | none => none
  | acc, c :: rest =>
    match tryPost (c :: rest) with
    | some (p, d) => some (acc.reverse, p, d)
    | none => if c = '\n' then none else tryRelease (c :: acc) rest

/-- Backtracking over the greedy leading `\s*`: try consuming `k` whitespace
characters, longest first. -/
def tryWsFrom (s : Str) : Nat → Option (Str × Option Str × Bool)
  | 0 => tryRelease [] s
  | k + 1 =>
    match tryRelease [] (s.drop (k + 1)) with
    | some r => some r
    | none => tryWsFrom s k

/-- `GIT_DESCRIPION_re.match(s)` (the misspelling is the source's): returns
`(release, post, dirty)` on a match — `release` the captured release string,
`post` the captured digit string of the post count if the group matched,
`dirty` whether the dirty marker matched. -/
def GIT_DESCRIPION_match (s : Str) : Option (Str × Option Str × Bool) :=
  tryWsFrom s (s.takeWhile isSpaceC).length

/-!
## The release-version regex

```
RELEASE_VERSION_re = re.compile(r'\A\d+(\.\d+)*((?:a|b|c|rc)\d+)?\Z')
```

This pattern is deterministic (at every position, at most one alternative
can lead to a full match), so it is embedded as the DFA below.  States:
* `s0` — start, before the first digit of `\d+`;
* `s1` — inside a digit run of `\d+` or `(\.\d+)*` (accepting);
* `s2` — just after a `.`, a digit is required;
* `s3` — just after the pre-release letter (`a`, `b`, `c` or `rc`),
  a digit is required;
* `s4` — after an `r`, a `c` is required;
* `s5` — inside the trailing `\d+` of the pre-release part (accepting).
-/

inductive RVState | s0 | s1 | s2 | s3 | s4 | s5
deriving DecidableEq

/-- One transition of the release-version DFA. -/
def rvStep (st : RVState) (c : Char) : Option RVState :=
  match st with
  | .s0 => if isDigitC c then some .s1 else none
  | .s1 =>
    if isDigitC c then some .s1
    else if c = '.' then some .s2
    else if c = 'a' || c = 'b' || c = 'c' then some .s3
    else if c = 'r' then some .s4
    else none
  | .s2 => if isDigitC c then some .s1 else none
  | .s3 => if isDigitC c then some .s5 else none
  | .s4 => if c = 'c' then some .s3 else none
  | .s5 => if isDigitC c then some .s5 else none

/-- Accepting states (`\Z` may follow). -/
def rvAccept (st : RVState) : Bool := st = .s1 || st = .s5

/-- Run the DFA. -/
def rvRun (st : RVState) : Str → Bool
  | [] => rvAccept st
  | c :: rest =>
    match rvStep st c with
    | some st2 => rvRun st2 rest
    | none => false

/-- `RELEASE_VERSION_re.match(s)` as a Boolean: does `s` match
`\A\d+(\.\d+)*((?:a|b|c|rc)\d+)?\Z`? -/
def RELEASE_VERSION_match (s : Str) : Bool := rvRun .s0 s

/-!
## The program model

The module raises `GitNotFound` (from `run_git`, when the `git` executable
is missing), `GitFailed` (from `run_git`, on a non-zero exit status,
carrying the command, the status and the rstripped captured stderr), plain
`GitError` (from `get_git_version`, on unparsable describe output or an
invalid release tag, distinguished by message), and `RuntimeError` (from
`get_version`, when no source yields a version).  Messages are embedded
without Python `%r` quoting, which does not affect any claim.
-/

inductive Err
  | gitNotFound (msg : Str)
  | gitFailed (cmd : List Str) (returncode : Int) (detail : Str)
  | gitError (msg : Str)
  | runtimeError (msg : Str)
deriving DecidableEq

/-- Outcome of one subprocess invocation: the lines of its stdout (as
returned by `readlines`, each keeping its newline), or the executable was
not found (`OSError` with `ENOENT`), or a non-zero exit with this status
and this raw stderr content. -/
inductive GitResult
  | ok (lines : List Str)
  | notFound
  | failed (returncode : Int) (stderr : Str)
deriving DecidableEq

/-- Outcomes of the three git commands the module runs. -/
structure GitEnv where
  revParse : GitResult
  describe : GitResult
  revList : GitResult
deriving DecidableEq

/-- `run_git(*args)` with the default `git_cmd='git'`: returns the stdout
lines, or raises `GitNotFound` when the executable is missing, or raises
`GitFailed(cmd, returncode, stderr.read().rstrip())` on non-zero exit. -/
def run_git (cmd : List Str) (r : GitResult) : Except Err (List Str) :=
  match r with
  | .ok lines => .ok lines
  | .notFound => .error (.gitNotFound ("git not found in PATH".toList))
  | .failed code stderr => .error (.gitFailed cmd code (rstrip stderr))

/-- The command list `('git', 'rev-parse', '--is-inside-work-tree')`. -/
def revParseCmd : List Str :=
  ["git".toList, "rev-parse".toList, "--is-inside-work-tree".toList]

/-- The command list `('git', 'describe', '--dirty')`. -/
def describeCmd : List Str :=
  ["git".toList, "describe".toList, "--dirty".toList]

/-- The command list `('git', 'rev-list', 'HEAD')`. -/
def revListCmd : List Str :=
  ["git".toList, "rev-list".toList, "HEAD".toList]

/-- `get_number_of_commits_in_head()`: the number of lines printed by
`git rev-list HEAD`; a `GitFailed` with status 128 (no commits yet) yields
0; any other `GitFailed` is re-raised; `GitNotFound` propagates uncaught. -/
def get_number_of_commits_in_head (env : GitEnv) : Except Err Nat :=
  match run_git revListCmd env.revList with
  | .ok lines => .ok lines.length
  | .error (.gitFailed cmd code detail) =>
    if code ≠ 128 then .error (.gitFailed cmd code detail) else .ok 0
  | .error e => .error e

/-- Message of the `GitError` raised on unparsable describe output. -/
def parseErrMsg (output : Str) : Str :=
  "can not parse the output of git describe (".toList ++ output ++ ")".toList

/-- Message of the `GitError` raised on an invalid release tag. -/
def invalidErrMsg (release : Str) : Str :=
  "invalid release version (".toList ++ release ++ ")".toList

/-- Lines 138–155 of `get_git_version`: match the stripped describe output
against `GIT_DESCRIPION_re` (no match is a fatal `GitError`), take
`post = int(post) if post else 0`, validate the release against
`RELEASE_VERSION_re` (failure is a fatal `GitError`), and build the
version: `release + '.post%d.dev0' % (post+1)` if dirty, else
`release + '.post%d' % post` if `post` is non-zero (`elif post:`), else
`release` unchanged. -/
def postOf (postGroup : Option Str) : Nat :=
  match postGroup with
  | some ds => natOfDigits ds
  | none => 0

def parse_describe (output : Str) : Except Err (Option Str) :=
  match GIT_DESCRIPION_match output with
  | none => .error (.gitError (parseErrMsg output))
  | some (release, postGroup, dirty) =>
    if RELEASE_VERSION_match release then
      if dirty then
        .ok (some (release ++ ".post".toList ++ decimalRepr (postOf postGroup + 1)
                   ++ ".dev0".toList))
      else if postOf postGroup ≠ 0 then
        .ok (some (release ++ ".post".toList ++ decimalRepr (postOf postGroup)))
      else
        .ok (some release)
    else .error (.gitError (invalidErrMsg release))

/-- `get_git_version()`: probe `git rev-parse --is-inside-work-tree` and
return `None` if it raises any `GitError`; run `git describe --dirty`; on a
`GitFailed` with status 128 (no tags) return `'0.dev%d' % commit_count`, on
any other `GitFailed` re-raise (and `GitNotFound` propagates uncaught);
otherwise join and strip the output lines and parse them
(`parse_describe`). -/
def get_git_version (env : GitEnv) : Except Err (Option Str) :=
  match run_git revParseCmd env.revParse with
  | .error _ => .ok none
  | .ok _ =>
    match run_git describeCmd env.describe with
    | .error (.gitFailed cmd code detail) =>
      if code ≠ 128 then .error (.gitFailed cmd code detail)
      else
        match get_number_of_commits_in_head env with
        | .ok n => .ok (some ("0.dev".toList ++ decimalRepr n))
        | .error e => .error e
    | .error e => .error e
    | .ok lines => parse_describe (strip lines.flatten)

/-!
## The cache file and `get_version`

The cache file `RELEASE-VERSION` is modelled as an optional raw content
(`none` when the file does not exist, the `IOError ENOENT` branch), plus a
log of the contents written to it, so that "the cache file is written" is
observable in the state.
-/

/-- State of the cache file. -/
structure FS where
  cache : Option Str
  writes : List Str
deriving DecidableEq

/-- `get_cached_version()`: `open(VERSION_CACHE).read().strip()`, or `None`
when the file does not exist. -/
def get_cached_version (fs : FS) : Option Str :=
  match fs.cache with
  | some content => some (strip content)
  | none => none

/-- `set_cached_version(version)`: write `version + "\n"` to the cache
file. -/
def set_cached_version (version : Str) (fs : FS) : FS :=
  { cache := some (version ++ ['\n']), writes := fs.writes ++ [version ++ ['\n']] }

/-- `get_version()`: read the cache, query git; if the live query returned
`None`, fall back on the cached value, raising `RuntimeError` when that is
also missing; otherwise write the live value to the cache when it differs
from the cached one, and return it.  Exceptions from `get_git_version`
propagate before any write.  Returns the outcome together with the
resulting cache-file state. -/
def get_version (env : GitEnv) (fs : FS) : Except Err Str × FS :=
  match get_git_version env with
  | .error e => (.error e, fs)
  | .ok none =>
    match get_cached_version fs with
    | none => (.error (.runtimeError ("can not determine version number".toList)), fs)
    | some v => (.ok v, fs)
  | .ok (some git_version) =>
    if get_cached_version fs ≠ some git_version then
      (.ok git_version, set_cached_version git_version fs)
    else
      (.ok git_version, fs)

/-!
## Spec-side predicate for the version-string invariant

Formalised from the spec's words ("PEP440-normalized form:
`<release>[.postN[.dev0]]`"), to be compared with what `get_git_version`
produces. -/

/-- Does `s` have the shape `.postN` or `.postN.dev0` with `N` a non-empty
digit run? -/
def postSuffixOk (s : Str) : Bool :=
  match s with
  | '.' :: 'p' :: 'o' :: 's' :: 't' :: rest =>
    let ds := rest.takeWhile isDigitC
    let rest2 := rest.dropWhile isDigitC
    decide (ds ≠ []) && (decide (rest2 = []) || decide (rest2 = ".dev0".toList))
  | _ => false

/-- `s` is of the form `<release>[.postN[.dev0]]` with `<release>` passing
the numeric PEP440 release pattern. -/
def isNormalizedVersion (s : Str) : Bool :=
  (List.range (s.length + 1)).any (fun i =>
    RELEASE_VERSION_match (s.take i) && (decide (s.drop i = []) || postSuffixOk (s.drop i)))

/-!
## Constructors for well-formed describe strings

These build exactly the grammar `<release>(-<post>-g<hash>)?(-dirty)?` that
the claims quantify over: the optional middle part is given as
`some (digits, hash)` and the dirty marker as a Boolean.
-/

/-- The optional `-<post>-g<hash>` part of a describe string. -/
def postPart : Option (Str × Str) → Str
  | none => []
  | some (ds, h) => '-' :: (ds ++ '-' :: 'g' :: h)

/-- The optional `-dirty` part of a describe string. -/
def dirtyPart : Bool → Str
  | false => []
  | true => "-dirty".toList

/-- The numeric post count of the optional part (`int(post) if post else 0`). -/
def postCount : Option (Str × Str) → Nat
  | none => 0
  | some (ds, _) => natOfDigits ds

/-!
## Helper lemmas
-/

/-- The characters that can occur in a string accepted by
`RELEASE_VERSION_re`: digits, the dot, and the pre-release letters. -/
def isRelChar (c : Char) : Bool :=
  isDigitC c || c = '.' || c = 'a' || c = 'b' || c = 'c' || c = 'r'

theorem takeWhile_all_eq {p : Char → Bool} {l : Str} (h : l.all p = true) :
    l.takeWhile p = l := by
  induction l with
  | nil => rfl
  | cons c t ih =>
    simp only [List.all_cons, Bool.and_eq_true] at h
    simp [List.takeWhile_cons_of_pos h.1, ih h.2]

theorem dropWhile_all_eq {p : Char → Bool} {l : Str} (h : l.all p = true) :
    l.dropWhile p = [] := by
  induction l with
  | nil => rfl
  | cons c t ih =>
    simp only [List.all_cons, Bool.and_eq_true] at h
    simp [List.dropWhile_cons_of_pos h.1, ih h.2]

theorem takeWhile_append_stop {p : Char → Bool} {l u : Str} {c : Char}
    (h : l.all p = true) (hc : p c = false) :
    (l ++ c :: u).takeWhile p = l := by
  induction l with
  | nil => simp [List.takeWhile_cons_of_neg, hc]
  | cons a t ih =>
    simp only [List.all_cons, Bool.and_eq_true] at h
    simp [List.takeWhile_cons_of_pos h.1, ih h.2]

theorem dropWhile_append_stop {p : Char → Bool} {l u : Str} {c : Char}
    (h : l.all p = true) (hc : p c = false) :
    (l ++ c :: u).dropWhile p = c :: u := by
  induction l with
  | nil => simp [List.dropWhile_cons_of_neg, hc]
  | cons a t ih =>
    simp only [List.all_cons, Bool.and_eq_true] at h
    simp [List.dropWhile_cons_of_pos h.1, ih h.2]

theorem digitChar_digit (n : Nat) : isDigitC (digitChar n) = true := by
  unfold digitChar
  split <;> decide

theorem decimalAux_all_digit (fuel n : Nat) :
    (decimalAux fuel n).all isDigitC = true := by
  induction fuel generalizing n with
  | zero => rfl
  | succ fuel ih =>
    unfold decimalAux
    split
    · simp [digitChar_digit]
    · simp [List.all_append, ih, digitChar_digit]

theorem decimalRepr_all_digit (n : Nat) : (decimalRepr n).all isDigitC = true :=
  decimalAux_all_digit (n + 1) n

theorem decimalRepr_ne_nil (n : Nat) : decimalRepr n ≠ [] := by
  unfold decimalRepr decimalAux
  split
  · simp
  · simp

/-- Every character of a string accepted by the release-version DFA is a
release character. -/
theorem rvStep_relChar {st st2 : RVState} {c : Char} (h : rvStep st c = some st2) :
    isRelChar c = true := by
  cases st <;> simp only [rvStep] at h <;> repeat' split at h
  all_goals simp_all [isRelChar]

theorem rvRun_all_relChar {st : RVState} {s : Str} (h : rvRun st s = true) :
    s.all isRelChar = true := by
  induction s generalizing st with
  | nil => rfl
  | cons c t ih =>
    simp only [rvRun] at h
    cases h2 : rvStep st c with
    | none => rw [h2] at h; exact absurd h (by simp)
    | some st2 =>
      rw [h2] at h
      simp [List.all_cons, rvStep_relChar h2, ih h]

theorem RELEASE_all_relChar {r : Str} (h : RELEASE_VERSION_match r = true) :
    r.all isRelChar = true :=
  rvRun_all_relChar h

/-- A string accepted by `RELEASE_VERSION_re` starts with a digit. -/
theorem RELEASE_head_digit {r : Str} (h : RELEASE_VERSION_match r = true) :
    ∃ c t, r = c :: t ∧ isDigitC c = true := by
  cases r with
  | nil => exact absurd h (by decide)
  | cons c t =>
    refine ⟨c, t, rfl, ?_⟩
    simp only [RELEASE_VERSION_match, rvRun, rvStep] at h
    by_cases hc : isDigitC c = true
    · exact hc
    · rw [if_neg hc] at h; exact absurd h (by simp)

theorem relChar_not_special {c : Char} (h : isRelChar c = true) :
    c ≠ '-' ∧ isSpaceC c = false ∧ c ≠ '\n' := by
  simp only [isRelChar, Bool.or_eq_true, decide_eq_true_eq] at h
  rcases h with ((((hd | rfl) | rfl) | rfl) | rfl) | rfl
  · refine ⟨?_, ?_, ?_⟩
    · rintro rfl; exact absurd hd (by decide)
    · simp only [isSpaceC, Bool.or_eq_false_iff, decide_eq_false_iff_not]
      refine ⟨⟨⟨⟨⟨?_, ?_⟩, ?_⟩, ?_⟩, ?_⟩, ?_⟩ <;>
        (rintro rfl; exact absurd hd (by decide))
    · rintro rfl; exact absurd hd (by decide)
  all_goals decide

/-- At a position whose head is a release character, the
`(?:-...-g...)? (-dirty)? \s* \Z` continuation cannot match: its head is
neither a `-` nor whitespace. -/
theorem tryPost_relChar {c : Char} {t : Str} (h : isRelChar c = true) :
    tryPost (c :: t) = none := by
  obtain ⟨hdash, hsp, _⟩ := relChar_not_special h
  have hdirty : tryDirty (c :: t) = none := by
    unfold tryDirty
    split
    · next heq => exact absurd (List.cons.injEq .. ▸ heq).1 hdash
    · rw [if_neg]
      simp [tailEnd, hsp]
  unfold tryPost
  split
  · next heq => exact absurd (List.cons.injEq .. ▸ heq).1 hdash
  · rw [hdirty]; rfl

/-- The lazy `release` group scans over any string of release characters
without the continuation matching. -/
theorem tryRelease_append {r : Str} (t acc : Str) (h : r.all isRelChar = true) :
    tryRelease acc (r ++ t) = tryRelease (r.reverse ++ acc) t := by
  induction r generalizing acc with
  | nil => simp
  | cons c r2 ih =>
    simp only [List.all_cons, Bool.and_eq_true] at h
    obtain ⟨_, _, hnl⟩ := relChar_not_special h.1
    simp only [List.cons_append, tryRelease, tryPost_relChar h.1, if_neg hnl,
      List.append_eq, List.nil_append, ih _ h.2, List.reverse_cons,
      List.append_assoc, List.singleton_append]

/-- If the post/dirty continuation matches at a position, the lazy release
group stops there. -/
theorem tryRelease_of_tryPost {acc t : Str} {pg : Option Str} {d : Bool}
    (h : tryPost t = some (pg, d)) :
    tryRelease acc t = some (acc.reverse, pg, d) := by
  cases t with
  | nil => simp only [tryRelease, h]
  | cons c rest => simp only [tryRelease, h]

/-- The continuation match on a well-formed suffix
`(-<post>-g<hash>)?(-dirty)?` yields exactly its post digits and dirty
flag. -/
theorem tryPost_suffix (po : Option (Str × Str)) (dirty : Bool)
    (hpo : ∀ ds h, po = some (ds, h) →
      ds ≠ [] ∧ ds.all isDigitC = true ∧ h ≠ [] ∧ h.all isHexC = true) :
    tryPost (postPart po ++ dirtyPart dirty) = some (Option.map Prod.fst po, dirty) := by
  cases po with
  | none =>
    cases dirty with
    | false => decide
    | true => decide
  | some dh =>
    obtain ⟨ds, hash⟩ := dh
    obtain ⟨hds, hdsall, hh, hhall⟩ := hpo ds hash rfl
    obtain ⟨d0, ds2, rfl⟩ := List.exists_cons_of_ne_nil hds
    obtain ⟨h0, hs2, rfl⟩ := List.exists_cons_of_ne_nil hh
    have hdig : isDigitC '-' = false := by decide
    have hhex : isHexC '-' = false := by decide
    have hdlit : dirtyPart true = '-' :: 'd' :: 'i' :: 'r' :: 't' :: 'y' :: [] := rfl
    have htd : tryDirty (dirtyPart dirty) = some dirty := by
      cases dirty <;> rfl
    have htkh : ((h0 :: hs2) ++ dirtyPart dirty).takeWhile isHexC = h0 :: hs2 := by
      cases dirty
      · rw [show dirtyPart false = [] from rfl, List.append_nil]
        exact takeWhile_all_eq hhall
      · rw [hdlit]; exact takeWhile_append_stop hhall hhex
    have hdph : ((h0 :: hs2) ++ dirtyPart dirty).dropWhile isHexC = dirtyPart dirty := by
      cases dirty
      · rw [show dirtyPart false = [] from rfl, List.append_nil]
        exact dropWhile_all_eq hhall
      · rw [hdlit]; exact dropWhile_append_stop hhall hhex
    have hrest : postPart (some (d0 :: ds2, h0 :: hs2)) ++ dirtyPart dirty
        = '-' :: ((d0 :: ds2) ++ '-' :: 'g' :: ((h0 :: hs2) ++ dirtyPart dirty)) := by
      simp [postPart, List.append_assoc]
    have htkd : ((d0 :: ds2) ++ '-' :: 'g' :: ((h0 :: hs2) ++ dirtyPart dirty)).takeWhile
        isDigitC = d0 :: ds2 := takeWhile_append_stop hdsall hdig
    have hdpd : ((d0 :: ds2) ++ '-' :: 'g' :: ((h0 :: hs2) ++ dirtyPart dirty)).dropWhile
        isDigitC = '-' :: 'g' :: ((h0 :: hs2) ++ dirtyPart dirty) :=
      dropWhile_append_stop hdsall hdig
    rw [hrest]
    simp only [tryPost]
    rw [htkd, hdpd]
    simp only [htkh, hdph, htd]
    rfl

/-- `GIT_DESCRIPION_re.match` on a well-formed describe string
`<release>(-<post>-g<hash>)?(-dirty)?` with a release accepted by
`RELEASE_VERSION_re` captures exactly its three parts. -/
theorem GIT_DESCRIPION_match_wf (r : Str) (po : Option (Str × Str)) (dirty : Bool)
    (hr : RELEASE_VERSION_match r = true)
    (hpo : ∀ ds h, po = some (ds, h) →
      ds ≠ [] ∧ ds.all isDigitC = true ∧ h ≠ [] ∧ h.all isHexC = true) :
    GIT_DESCRIPION_match (r ++ postPart po ++ dirtyPart dirty) =
      some (r, Option.map Prod.fst po, dirty) := by
  obtain ⟨c, t, rfl, hc⟩ := RELEASE_head_digit hr
  have hcsp : isSpaceC c = false :=
    (relChar_not_special (by simp [isRelChar, hc])).2.1
  have hsp : (((c :: t) ++ postPart po ++ dirtyPart dirty).takeWhile isSpaceC) = [] := by
    simp [List.takeWhile_cons_of_neg, hcsp]
  unfold GIT_DESCRIPION_match
  rw [hsp]
  simp only [List.length_nil, tryWsFrom, List.append_assoc]
  rw [tryRelease_append _ _ (RELEASE_all_relChar hr),
    tryRelease_of_tryPost (tryPost_suffix po dirty hpo)]
  simp

/-- A release followed by an admissible suffix is a normalized version. -/
theorem isNormalized_build {rel suf : Str} (hrel : RELEASE_VERSION_match rel = true)
    (hsuf : suf = [] ∨ postSuffixOk suf = true) :
    isNormalizedVersion (rel ++ suf) = true := by
  unfold isNormalizedVersion
  rw [List.any_eq_true]
  refine ⟨rel.length, ?_, ?_⟩
  · rw [List.mem_range, List.length_append]; omega
  · rw [List.take_left, List.drop_left]
    rcases hsuf with rfl | h
    · simp [hrel]
    · simp [hrel, h]

theorem postSuffixOk_plain (n : Nat) :
    postSuffixOk (".post".toList ++ decimalRepr n) = true := by
  have h : (".post".toList ++ decimalRepr n)
      = '.' :: 'p' :: 'o' :: 's' :: 't' :: decimalRepr n := rfl
  rw [h]
  simp only [postSuffixOk]
  rw [takeWhile_all_eq (decimalRepr_all_digit n),
    dropWhile_all_eq (decimalRepr_all_digit n)]
  simp [decimalRepr_ne_nil n]

theorem postSuffixOk_dev (n : Nat) :
    postSuffixOk (".post".toList ++ decimalRepr n ++ ".dev0".toList) = true := by
  have hd : isDigitC '.' = false := by decide
  have h : (".post".toList ++ decimalRepr n ++ ".dev0".toList)
      = '.' :: 'p' :: 'o' :: 's' :: 't' :: (decimalRepr n ++ '.' :: "dev0".toList) := by
    rw [List.append_assoc]; rfl
  rw [h]
  simp only [postSuffixOk]
  rw [takeWhile_append_stop (decimalRepr_all_digit n) hd,
    dropWhile_append_stop (decimalRepr_all_digit n) hd]
  simp [decimalRepr_ne_nil n]

theorem dropWhile_length_le (p : Char → Bool) (l : Str) :
    (l.dropWhile p).length ≤ l.length := by
  induction l with
  | nil => simp
  | cons c t ih =>
    by_cases h : p c
    · rw [List.dropWhile_cons_of_pos h]
      exact Nat.le_trans ih (by simp)
    · rw [List.dropWhile_cons_of_neg h]

/-- Removing trailing whitespace is unaffected by a final newline. -/
theorem rstrip_append_newline (v : Str) : rstrip (v ++ ['\n']) = rstrip v := by
  unfold rstrip
  rw [List.reverse_append]
  simp [List.dropWhile_cons_of_pos (show isSpaceC '\n' = true from by decide)]

/-- `strip (v + "\n") = v` when `v` carries no whitespace at either end. -/
theorem strip_append_newline {v : Str} (h1 : lstrip v = v) (h2 : rstrip v = v) :
    strip (v ++ ['\n']) = v := by
  cases v with
  | nil => rfl
  | cons c t =>
    have hc : isSpaceC c = false := by
      by_contra hcs
      rw [Bool.not_eq_false] at hcs
      rw [lstrip, List.dropWhile_cons_of_pos hcs] at h1
      have hlen := congrArg List.length h1
      have hle := dropWhile_length_le isSpaceC t
      simp only [List.length_cons] at hlen
      omega
    have hl : lstrip ((c :: t) ++ ['\n']) = (c :: t) ++ ['\n'] := by
      rw [List.cons_append, lstrip, List.dropWhile_cons_of_neg (by simp [hc])]
    unfold strip
    rw [hl, rstrip_append_newline]
    exact h2

theorem writes_append_ne (l : List Str) (x : Str) : l ++ [x] ≠ l := by
  intro h
  have hlen := congrArg List.length h
  simp at hlen

/-!
## Path lemmas for `get_git_version`
-/

theorem ggv_revparse_notfound {env : GitEnv} (h : env.revParse = .notFound) :
    get_git_version env = .ok none := by
  unfold get_git_version
  rw [h]
  rfl

theorem ggv_revparse_failed {env : GitEnv} {code : Int} {s : Str}
    (h : env.revParse = .failed code s) :
    get_git_version env = .ok none := by
  unfold get_git_version
  rw [h]
  rfl

theorem ggv_describe_ok {env : GitEnv} {rp lines : List Str}
    (h1 : env.revParse = .ok rp) (h2 : env.describe = .ok lines) :
    get_git_version env = parse_describe (strip lines.flatten) := by
  unfold get_git_version
  rw [h1, h2]
  rfl

theorem ggv_describe_notfound {env : GitEnv} {rp : List Str}
    (h1 : env.revParse = .ok rp) (h2 : env.describe = .notFound) :
    get_git_version env = .error (.gitNotFound ("git not found in PATH".toList)) := by
  unfold get_git_version
  rw [h1, h2]
  rfl

theorem ggv_describe_failed {env : GitEnv} {rp : List Str} {code : Int} {s : Str}
    (h1 : env.revParse = .ok rp) (h2 : env.describe = .failed code s)
    (h3 : code ≠ 128) :
    get_git_version env = .error (.gitFailed describeCmd code (rstrip s)) := by
  unfold get_git_version
  rw [h1, h2]
  simp only [run_git]
  rw [if_pos h3]

theorem ggv_notags_ok {env : GitEnv} {rp : List Str} {s : Str} {lines : List Str}
    (h1 : env.revParse = .ok rp) (h2 : env.describe = .failed 128 s)
    (h3 : env.revList = .ok lines) :
    get_git_version env = .ok (some ("0.dev".toList ++ decimalRepr lines.length)) := by
  unfold get_git_version get_number_of_commits_in_head
  rw [h1, h2, h3]
  simp [run_git]

theorem ggv_notags_nocommits {env : GitEnv} {rp : List Str} {s s2 : Str}
    (h1 : env.revParse = .ok rp) (h2 : env.describe = .failed 128 s)
    (h3 : env.revList = .failed 128 s2) :
    get_git_version env = .ok (some ("0.dev".toList ++ decimalRepr 0)) := by
  unfold get_git_version get_number_of_commits_in_head
  rw [h1, h2, h3]
  simp [run_git]

theorem ggv_notags_revlist_failed {env : GitEnv} {rp : List Str} {s s2 : Str}
    {code : Int}
    (h1 : env.revParse = .ok rp) (h2 : env.describe = .failed 128 s)
    (h3 : env.revList = .failed code s2) (h4 : code ≠ 128) :
    get_git_version env = .error (.gitFailed revListCmd code (rstrip s2)) := by
  unfold get_git_version get_number_of_commits_in_head
  rw [h1, h2, h3]
  simp only [run_git]
  rw [if_neg (by simp), if_pos h4]

theorem ggv_notags_revlist_notfound {env : GitEnv} {rp : List Str} {s : Str}
    (h1 : env.revParse = .ok rp) (h2 : env.describe = .failed 128 s)
    (h3 : env.revList = .notFound) :
    get_git_version env = .error (.gitNotFound ("git not found in PATH".toList)) := by
  unfold get_git_version get_number_of_commits_in_head
  rw [h1, h2, h3]
  simp [run_git]

/-!
## Lemmas about `parse_describe`
-/

theorem parse_describe_nomatch {out : Str} (h : GIT_DESCRIPION_match out = none) :
    parse_describe out = .error (.gitError (parseErrMsg out)) := by
  unfold parse_describe
  rw [h]

theorem parse_describe_invalid {out rel : Str} {pg : Option Str} {d : Bool}
    (h : GIT_DESCRIPION_match out = some (rel, pg, d))
    (h2 : RELEASE_VERSION_match rel = false) :
    parse_describe out = .error (.gitError (invalidErrMsg rel)) := by
  unfold parse_describe
  rw [h]
  simp [h2]

theorem postOf_map (po : Option (Str × Str)) :
    postOf (Option.map Prod.fst po) = postCount po := by
  cases po with
  | none => rfl
  | some dh => rfl

theorem parse_describe_wf (r : Str) (po : Option (Str × Str)) (dirty : Bool)
    (hr : RELEASE_VERSION_match r = true)
    (hpo : ∀ ds h, po = some (ds, h) →
      ds ≠ [] ∧ ds.all isDigitC = true ∧ h ≠ [] ∧ h.all isHexC = true) :
    parse_describe (r ++ postPart po ++ dirtyPart dirty) =
      if dirty then
        .ok (some (r ++ ".post".toList ++ decimalRepr (postCount po + 1)
                   ++ ".dev0".toList))
      else if postCount po ≠ 0 then
        .ok (some (r ++ ".post".toList ++ decimalRepr (postCount po)))
      else .ok (some r) := by
  unfold parse_describe
  rw [GIT_DESCRIPION_match_wf r po dirty hr hpo]
  simp only [postOf_map, hr, if_true]

theorem parse_describe_shape {out v : Str} (h : parse_describe out = .ok (some v)) :
    isNormalizedVersion v = true := by
  unfold parse_describe at h
  split at h
  · exact absurd h (by simp)
  next rel pg d heq =>
    split at h
    next hrel =>
      split at h
      next =>
        simp only [Except.ok.injEq, Option.some.injEq] at h
        subst h
        rw [show rel ++ ".post".toList ++ decimalRepr (postOf pg + 1) ++ ".dev0".toList
            = rel ++ (".post".toList ++ decimalRepr (postOf pg + 1) ++ ".dev0".toList) from by
          simp [List.append_assoc]]
        exact isNormalized_build hrel (Or.inr (postSuffixOk_dev _))
      next =>
        split at h
        next =>
          simp only [Except.ok.injEq, Option.some.injEq] at h
          subst h
          rw [show rel ++ ".post".toList ++ decimalRepr (postOf pg)
              = rel ++ (".post".toList ++ decimalRepr (postOf pg)) from by
            simp [List.append_assoc]]
          exact isNormalized_build hrel (Or.inr (postSuffixOk_plain _))
        next =>
          simp only [Except.ok.injEq, Option.some.injEq] at h
          have hb := isNormalized_build hrel (Or.inl rfl)
          rw [List.append_nil] at hb
          rw [← h]
          exact hb
    next => exact absurd h (by simp)

/-!
## Path lemmas for `get_version`
-/

theorem gv_error {env : GitEnv} {fs : FS} {e : Err}
    (h : get_git_version env = .error e) :
    get_version env fs = (.error e, fs) := by
  unfold get_version
  rw [h]

theorem gv_none_cached {env : GitEnv} {fs : FS} {cv : Str}
    (h : get_git_version env = .ok none)
    (h2 : get_cached_version fs = some cv) :
    get_version env fs = (.ok cv, fs) := by
  unfold get_version
  rw [h, h2]

theorem gv_none_nocache {env : GitEnv} {fs : FS}
    (h : get_git_version env = .ok none)
    (h2 : get_cached_version fs = none) :
    get_version env fs =
      (.error (.runtimeError ("can not determine version number".toList)), fs) := by
  unfold get_version
  rw [h, h2]

theorem gv_some_differs {env : GitEnv} {fs : FS} {v : Str}
    (h : get_git_version env = .ok (some v))
    (h2 : get_cached_version fs ≠ some v) :
    get_version env fs = (.ok v, set_cached_version v fs) := by
  unfold get_version
  rw [h]
  simp [h2]

theorem gv_some_same {env : GitEnv} {fs : FS} {v : Str}
    (h : get_git_version env = .ok (some v))
    (h2 : get_cached_version fs = some v) :
    get_version env fs = (.ok v, fs) := by
  unfold get_version
  rw [h]
  simp [h2]

theorem parseErrMsg_ne_invalidErrMsg (o rel : Str) :
    parseErrMsg o ≠ invalidErrMsg rel := by
  intro h
  have hh := congrArg List.head? h
  have e1 : (parseErrMsg o).head? = some 'c' := rfl
  have e2 : (invalidErrMsg rel).head? = some 'i' := rfl
  rw [e1, e2] at hh
  exact absurd hh (by decide)

/-!
## Claim theorems

Each theorem below settles one claim of the specification review.
-/

/-- C1 (amended): for every describe output of the grammar
`<release>(-<post>-g<hash>)?(-dirty)?` whose release part passes the numeric
PEP440 pattern, `get_git_version` returns `<release>.post<post+1>.dev0` when
the dirty marker is present (with `<post>` taken as 0 when the post count is
absent); `<release>.post<post>` when the dirty marker is absent and a
**non-zero** post count is present; and `<release>` unchanged when the dirty
marker is absent and the post count is absent **or zero**. -/
theorem C1_describe_grammar
    (env : GitEnv) (rp lines : List Str) (r : Str) (po : Option (Str × Str))
    (dirty : Bool)
    (h1 : env.revParse = .ok rp) (h2 : env.describe = .ok lines)
    (hout : strip lines.flatten = r ++ postPart po ++ dirtyPart dirty)
    (hr : RELEASE_VERSION_match r = true)
    (hpo : ∀ ds h, po = some (ds, h) →
      ds ≠ [] ∧ ds.all isDigitC = true ∧ h ≠ [] ∧ h.all isHexC = true) :
    (dirty = true →
      get_git_version env =
        .ok (some (r ++ ".post".toList ++ decimalRepr (postCount po + 1)
                   ++ ".dev0".toList))) ∧
    (dirty = false → postCount po ≠ 0 →
      get_git_version env =
        .ok (some (r ++ ".post".toList ++ decimalRepr (postCount po)))) ∧
    (dirty = false → postCount po = 0 →
      get_git_version env = .ok (some r)) := by
  have hg : get_git_version env = parse_describe (strip lines.flatten) :=
    ggv_describe_ok h1 h2
  rw [hout, parse_describe_wf r po dirty hr hpo] at hg
  refine ⟨?_, ?_, ?_⟩
  · rintro rfl
    rw [if_pos rfl] at hg
    exact hg
  · rintro rfl hp
    rw [if_neg (by simp), if_pos hp] at hg
    exact hg
  · rintro rfl hp
    rw [if_neg (by simp), if_neg (by simp [hp])] at hg
    exact hg

/-- Witness for C1: a concrete run on describe output `1.0-2-gabc`. -/
theorem C1_witness :
    get_git_version { revParse := .ok [], describe := .ok ["1.0-2-gabc\n".toList],
                      revList := .ok [] } = .ok (some "1.0.post2".toList) := by
  have h := C1_describe_grammar
    { revParse := .ok [], describe := .ok ["1.0-2-gabc\n".toList], revList := .ok [] }
    [] ["1.0-2-gabc\n".toList] "1.0".toList (some ("2".toList, "abc".toList)) false
    rfl rfl (by decide) (by decide)
    (by intro ds hsh hh; cases hh; exact ⟨by decide, by decide, by decide, by decide⟩)
  have h2 := h.2.1 rfl (by decide)
  rw [h2]
  rfl

/-- Counterexample to C1 as stated: on describe output `1.0-0-g1234` the
post count is present (with value 0) and the dirty marker is absent, yet the
result is `1.0`, not `1.0.post0` as the claim requires. -/
theorem C1_counterexample :
    get_git_version { revParse := .ok [], describe := .ok ["1.0-0-g1234\n".toList],
                      revList := .ok [] } = .ok (some "1.0".toList) ∧
    ("1.0".toList : Str) ≠
      "1.0".toList ++ ".post".toList ++ decimalRepr (natOfDigits "0".toList) := by
  exact ⟨rfl, by decide⟩

/-- C2: `get_version` returns the cached version when the live query yields
no value (`get_git_version` returns `None`); otherwise it returns the live
result, writing it to the cache when it differs from the cached value; and
it raises an error exactly when neither the live query nor the cache yields
a value. -/
theorem C2_resolve (env : GitEnv) (fs : FS) (x : Option Str)
    (h : get_git_version env = .ok x) :
    (x = none → ∀ cv, get_cached_version fs = some cv →
      get_version env fs = (.ok cv, fs)) ∧
    (∀ v, x = some v →
      (get_version env fs).1 = .ok v ∧
      (get_cached_version fs ≠ some v →
        (get_version env fs).2 = set_cached_version v fs)) ∧
    ((∃ e, (get_version env fs).1 = .error e) ↔
      (x = none ∧ get_cached_version fs = none)) := by
  refine ⟨?_, ?_, ?_⟩
  · rintro rfl cv hcv
    exact gv_none_cached h hcv
  · rintro v rfl
    by_cases hc : get_cached_version fs = some v
    · rw [gv_some_same h hc]
      exact ⟨rfl, fun hne => absurd hc hne⟩
    · rw [gv_some_differs h hc]
      exact ⟨rfl, fun _ => rfl⟩
  · constructor
    · rintro ⟨e, he⟩
      cases x with
      | some v =>
        by_cases hc : get_cached_version fs = some v
        · rw [gv_some_same h hc] at he
          exact absurd he (by simp)
        · rw [gv_some_differs h hc] at he
          exact absurd he (by simp)
      | none =>
        cases hc : get_cached_version fs with
        | some cv =>
          rw [gv_none_cached h hc] at he
          exact absurd he (by simp)
        | none => exact ⟨rfl, rfl⟩
    · rintro ⟨rfl, hc⟩
      refine ⟨.runtimeError ("can not determine version number".toList), ?_⟩
      rw [gv_none_nocache h hc]

/-- Witness for C2: no repository, cached `1.0`; the cached value is
returned and the cache is untouched. -/
theorem C2_witness :
    get_version { revParse := .notFound, describe := .ok [], revList := .ok [] }
        { cache := some "1.0\n".toList, writes := [] } =
      (.ok "1.0".toList, { cache := some "1.0\n".toList, writes := [] }) := by
  have h := C2_resolve { revParse := .notFound, describe := .ok [], revList := .ok [] }
    { cache := some "1.0\n".toList, writes := [] } none rfl
  exact h.1 rfl "1.0".toList rfl

/-- C3: with no release tags (describe fails with the no-tags status 128),
`get_git_version` returns `0.dev<N>` with `N` the number of commits in
`HEAD` (the number of lines of `git rev-list HEAD`); one commit yields
`0.dev1`, and zero commits (whether rev-list lists no lines or itself fails
with status 128) yield `0.dev0`. -/
theorem C3_no_tags (env : GitEnv) (rp : List Str) (serr : Str)
    (h1 : env.revParse = .ok rp) (h2 : env.describe = .failed 128 serr) :
    (∀ lines, env.revList = .ok lines →
      get_git_version env = .ok (some ("0.dev".toList ++ decimalRepr lines.length))) ∧
    (∀ l, env.revList = .ok [l] →
      get_git_version env = .ok (some "0.dev1".toList)) ∧
    (env.revList = .ok [] → get_git_version env = .ok (some "0.dev0".toList)) ∧
    (∀ s2, env.revList = .failed 128 s2 →
      get_git_version env = .ok (some "0.dev0".toList)) := by
  refine ⟨?_, ?_, ?_, ?_⟩
  · intro lines h3
    exact ggv_notags_ok h1 h2 h3
  · intro l h3
    rw [ggv_notags_ok h1 h2 h3]
    rfl
  · intro h3
    rw [ggv_notags_ok h1 h2 h3]
    rfl
  · intro s2 h3
    rw [ggv_notags_nocommits h1 h2 h3]
    rfl

/-- Witness for C3: one commit, no tags. -/
theorem C3_witness :
    get_git_version { revParse := .ok [], describe := .failed 128 "fatal".toList,
                      revList := .ok ["deadbeef\n".toList] } =
      .ok (some "0.dev1".toList) := by
  have h := C3_no_tags { revParse := .ok [], describe := .failed 128 "fatal".toList,
                         revList := .ok ["deadbeef\n".toList] } [] "fatal".toList rfl rfl
  exact h.2.1 "deadbeef\n".toList rfl

/-- C4: when the git command is not found or the rev-parse probe fails,
`get_git_version` returns `None` rather than raising, and resolution falls
back to the cached value. -/
theorem C4_no_repo (env : GitEnv) (fs : FS)
    (h : env.revParse = .notFound ∨ ∃ code s, env.revParse = .failed code s) :
    get_git_version env = .ok none ∧
    (∀ cv, get_cached_version fs = some cv → get_version env fs = (.ok cv, fs)) := by
  have hggv : get_git_version env = .ok none := by
    rcases h with h | ⟨code, s, h⟩
    · exact ggv_revparse_notfound h
    · exact ggv_revparse_failed h
  exact ⟨hggv, fun cv hcv => gv_none_cached hggv hcv⟩

/-- Witness for C4: rev-parse fails with status 128 (not a repository). -/
theorem C4_witness :
    get_git_version { revParse := .failed 128 "fatal: not a git repository".toList,
                      describe := .ok [], revList := .ok [] } = .ok none ∧
    get_version { revParse := .failed 128 "fatal: not a git repository".toList,
                  describe := .ok [], revList := .ok [] }
        { cache := some "2.0\n".toList, writes := [] } =
      (.ok "2.0".toList, { cache := some "2.0\n".toList, writes := [] }) := by
  have h := C4_no_repo { revParse := .failed 128 "fatal: not a git repository".toList,
                         describe := .ok [], revList := .ok [] }
    { cache := some "2.0\n".toList, writes := [] }
    (Or.inr ⟨128, "fatal: not a git repository".toList, rfl⟩)
  exact ⟨h.1, h.2 "2.0".toList rfl⟩

/-- C5: when describe exits non-zero with a status other than 128,
`get_git_version` propagates a fatal `GitFailed` carrying the describe
command, the exit status, and the captured (rstripped) stderr. -/
theorem C5_describe_failed (env : GitEnv) (rp : List Str) (code : Int)
    (stderr : Str)
    (h1 : env.revParse = .ok rp) (h2 : env.describe = .failed code stderr)
    (h3 : code ≠ 128) :
    get_git_version env = .error (.gitFailed describeCmd code (rstrip stderr)) :=
  ggv_describe_failed h1 h2 h3

/-- Witness for C5: describe exits with status 1. -/
theorem C5_witness :
    get_git_version { revParse := .ok [], describe := .failed 1 "boom\n".toList,
                      revList := .ok [] } =
      .error (.gitFailed describeCmd 1 "boom".toList) := by
  have h := C5_describe_failed { revParse := .ok [], describe := .failed 1 "boom\n".toList,
                                 revList := .ok [] } [] 1 "boom\n".toList rfl rfl (by decide)
  rw [h]
  rfl

/-- C6: `get_git_version` raises a fatal `GitError` when the describe output
does not match the description grammar, and a fatal `GitError` when the
matched release part fails the numeric PEP440 release pattern; the error
taxonomy distinguishes command-not-found (`GitNotFound`), non-zero exit
(`GitFailed`), unparsable output, and invalid release tag (two `GitError`s
with distinct messages). -/
theorem C6_error_taxonomy (env : GitEnv) (rp lines : List Str)
    (h1 : env.revParse = .ok rp) (h2 : env.describe = .ok lines) :
    (GIT_DESCRIPION_match (strip lines.flatten) = none →
      get_git_version env =
        .error (.gitError (parseErrMsg (strip lines.flatten)))) ∧
    (∀ rel pg d, GIT_DESCRIPION_match (strip lines.flatten) = some (rel, pg, d) →
      RELEASE_VERSION_match rel = false →
      get_git_version env = .error (.gitError (invalidErrMsg rel))) ∧
    (∀ m cmd code det m2,
      Err.gitNotFound m ≠ .gitFailed cmd code det ∧
      Err.gitNotFound m ≠ .gitError m2 ∧
      Err.gitFailed cmd code det ≠ .gitError m2) ∧
    (∀ out rel, Err.gitError (parseErrMsg out) ≠ .gitError (invalidErrMsg rel)) := by
  refine ⟨?_, ?_, ?_, ?_⟩
  · intro hm
    rw [ggv_describe_ok h1 h2]
    exact parse_describe_nomatch hm
  · intro rel pg d hm hrel
    rw [ggv_describe_ok h1 h2]
    exact parse_describe_invalid hm hrel
  · intro m cmd code det m2
    refine ⟨?_, ?_, ?_⟩ <;> intro hx <;> exact Err.noConfusion hx
  · intro out rel
    intro hx
    injection hx with hx2
    exact parseErrMsg_ne_invalidErrMsg out rel hx2

/-- Witness for C6: multi-line describe output `a\nb` is unparsable (the
release group cannot cross a newline), and output `vX.Y` parses but fails
the release pattern. -/
theorem C6_witness :
    get_git_version { revParse := .ok [], describe := .ok ["a\n".toList, "b\n".toList],
                      revList := .ok [] } =
      .error (.gitError (parseErrMsg "a\nb".toList)) ∧
    get_git_version { revParse := .ok [], describe := .ok ["vX.Y\n".toList],
                      revList := .ok [] } =
      .error (.gitError (invalidErrMsg "vX.Y".toList)) := by
  constructor
  · have h := C6_error_taxonomy
      { revParse := .ok [], describe := .ok ["a\n".toList, "b\n".toList], revList := .ok [] }
      [] ["a\n".toList, "b\n".toList] rfl rfl
    exact h.1 rfl
  · have h := C6_error_taxonomy
      { revParse := .ok [], describe := .ok ["vX.Y\n".toList], revList := .ok [] }
      [] ["vX.Y\n".toList] rfl rfl
    exact h.2.1 "vX.Y".toList none false rfl rfl

/-- C7: `get_version` writes the cache file if and only if the live query
succeeded and the computed version differs from the currently stored one;
when the computed version equals the cached value, no write happens. -/
theorem C7_cache_write_iff (env : GitEnv) (fs : FS) :
    (get_version env fs).2.writes ≠ fs.writes ↔
      ∃ v, get_git_version env = .ok (some v) ∧
        get_cached_version fs ≠ some v := by
  cases hg : get_git_version env with
  | error e =>
    rw [gv_error hg]
    simp [hg]
  | ok xo =>
    cases xo with
    | none =>
      cases hc : get_cached_version fs with
      | none =>
        rw [gv_none_nocache hg hc]
        simp [hg]
      | some cv =>
        rw [gv_none_cached hg hc]
        simp [hg]
    | some v =>
      by_cases hc : get_cached_version fs = some v
      · rw [gv_some_same hg hc]
        simp only [ne_eq, not_true_eq_false, false_iff, not_exists, not_and, hg]
        intro v2 hv2
        simp only [Except.ok.injEq, Option.some.injEq] at hv2
        subst hv2
        simp [hc]
      · rw [gv_some_differs hg hc]
        constructor
        · intro _
          exact ⟨v, rfl, hc⟩
        · intro _
          exact writes_append_ne fs.writes (v ++ ['\n'])

/-- C8 (amended): every version `get_git_version` produces either has the
PEP440-normalized form `<release>[.postN[.dev0]]` (describe path) or is the
`0.dev<N>` string of the no-tags path. -/
theorem C8_version_shape (env : GitEnv) (v : Str)
    (h : get_git_version env = .ok (some v)) :
    isNormalizedVersion v = true ∨ ∃ n : Nat, v = "0.dev".toList ++ decimalRepr n := by
  cases hrp : env.revParse with
  | notFound =>
    rw [ggv_revparse_notfound hrp] at h
    exact absurd h (by simp)
  | failed code s =>
    rw [ggv_revparse_failed hrp] at h
    exact absurd h (by simp)
  | ok rp =>
    cases hd : env.describe with
    | ok lines =>
      rw [ggv_describe_ok hrp hd] at h
      exact Or.inl (parse_describe_shape h)
    | notFound =>
      rw [ggv_describe_notfound hrp hd] at h
      exact absurd h (by simp)
    | failed code s =>
      by_cases hcode : code = 128
      · subst hcode
        cases hrl : env.revList with
        | ok ls =>
          rw [ggv_notags_ok hrp hd hrl] at h
          simp only [Except.ok.injEq, Option.some.injEq] at h
          exact Or.inr ⟨ls.length, h.symm⟩
        | notFound =>
          rw [ggv_notags_revlist_notfound hrp hd hrl] at h
          exact absurd h (by simp)
        | failed c2 s2 =>
          by_cases hc2 : c2 = 128
          · subst hc2
            rw [ggv_notags_nocommits hrp hd hrl] at h
            simp only [Except.ok.injEq, Option.some.injEq] at h
            exact Or.inr ⟨0, h.symm⟩
          · rw [ggv_notags_revlist_failed hrp hd hrl hc2] at h
            exact absurd h (by simp)
      · rw [ggv_describe_failed hrp hd hcode] at h
        exact absurd h (by simp)

/-- Witness for C8: a concrete describe-path run. -/
theorem C8_witness :
    isNormalizedVersion "2.1.2rc1.post3.dev0".toList = true ∨
      ∃ n : Nat, "2.1.2rc1.post3.dev0".toList = "0.dev".toList ++ decimalRepr n :=
  C8_version_shape
    { revParse := .ok [], describe := .ok ["2.1.2rc1-2-gbeef-dirty\n".toList],
      revList := .ok [] }
    "2.1.2rc1.post3.dev0".toList rfl

/-- Counterexample to C8 as stated: the no-tags path produces `0.dev1`,
which is not of the form `<release>[.postN[.dev0]]`. -/
theorem C8_counterexample :
    get_git_version { revParse := .ok [], describe := .failed 128 "no names".toList,
                      revList := .ok ["c1\n".toList] } = .ok (some "0.dev1".toList) ∧
    isNormalizedVersion "0.dev1".toList = false := by
  exact ⟨rfl, by decide⟩

/-- C9: writing a version (with no surrounding whitespace and no embedded
newline) to the cache and reading it back returns exactly that version. -/
theorem C9_cache_roundtrip (fs : FS) (v : Str)
    (h1 : lstrip v = v) (h2 : rstrip v = v)
    (_h3 : v.all (fun c => decide (c ≠ '\n')) = true) :
    get_cached_version (set_cached_version v fs) = some v := by
  show some (strip (v ++ ['\n'])) = some v
  rw [strip_append_newline h1 h2]

/-- Witness for C9. -/
theorem C9_witness :
    get_cached_version
        (set_cached_version "1.0.post7".toList { cache := none, writes := [] }) =
      some "1.0.post7".toList :=
  C9_cache_roundtrip { cache := none, writes := [] } "1.0.post7".toList
    (by decide) (by decide) (by decide)

/-- C10: a fatal error from the live query propagates out of `get_version`
and the cache file is left unchanged: no write happens on any error path. -/
theorem C10_error_no_write (env : GitEnv) (fs : FS) (e : Err)
    (h : get_git_version env = .error e) :
    get_version env fs = (.error e, fs) ∧
    (get_version env fs).2.writes = fs.writes := by
  have hv : get_version env fs = (.error e, fs) := gv_error h
  exact ⟨hv, by rw [hv]⟩

/-- Witness for C10: describe fails with status 1 while a cache is
present; the error propagates and the cache is untouched. -/
theorem C10_witness :
    get_version { revParse := .ok [], describe := .failed 1 "boom".toList,
                  revList := .ok [] }
        { cache := some "3.0\n".toList, writes := [] } =
      (.error (.gitFailed describeCmd 1 "boom".toList),
        { cache := some "3.0\n".toList, writes := [] }) := by
  have h := C10_error_no_write { revParse := .ok [], describe := .failed 1 "boom".toList,
                                 revList := .ok [] }
    { cache := some "3.0\n".toList, writes := [] }
    (.gitFailed describeCmd 1 "boom".toList) rfl
  exact h.1

end Gitversion
